import Mathlib

/-!
Shallow embedding of the packagist datasource
(src/lib/datasource/packagist/index.ts) and proofs of its specified
properties.  Network, host-rule lookup and the two persistent-cache
namespaces are modelled as an explicit environment and state; every
observable side effect (network fetch, cache read, cache write, log
call) is recorded in an event trace.
-/

namespace Packagist

/-- JS truthiness of an optional string value: defined and nonempty. -/
def truthy : Option String → Bool
  | none => false
  | some s => s ≠ ""

/-- JS `String.prototype.replace` with a string pattern: replaces the
first occurrence only. -/
def replaceOnce (s pat rep : String) : String :=
  match s.splitOn pat with
  | [] => s
  | [x] => x
  | x :: y :: rest => x ++ rep ++ String.intercalate pat (y :: rest)

/-- `regUrl.replace(/\/?$/, '/')`: ensure a single trailing slash is
present (appends one when missing). -/
def ensureSlash (s : String) : String :=
  if s.endsWith "/" then s else s ++ "/"

/-- The scheme-and-host part of an absolute URL. -/
def urlOrigin (u : String) : String :=
  match u.splitOn "/" with
  | scheme :: "" :: host :: _ => scheme ++ "//" ++ host
  | _ => u

/-- Node `URL.resolve` for the shapes used by this datasource: a
root-relative reference replaces everything after the origin, any other
reference replaces the last path segment of the base. -/
def urlResolve (base rel : String) : String :=
  if rel.startsWith "/" then urlOrigin base ++ rel
  else
    let ps := (base.splitOn "/").dropLast
    if ps.isEmpty then base ++ "/" ++ rel
    else String.intercalate "/" ps ++ "/" ++ rel

/-- JS-object lookup on an insertion-ordered association list. -/
def lookupA {β : Type} : List (String × β) → String → Option β
  | [], _ => none
  | (k, v) :: rest, key => if k = key then some v else lookupA rest key

/-- JS-object assignment on an insertion-ordered association list: an
existing key keeps its position, a new key is appended. -/
def insertA {β : Type} : List (String × β) → String → β → List (String × β)
  | [], key, v => [(key, v)]
  | (k, w) :: rest, key, v =>
    if k = key then (key, v) :: rest else (k, w) :: insertA rest key v

/-- A `{key, sha256}` shard descriptor (interface RegistryFile). -/
structure RegistryFile where
  key : String
  sha256 : String
  deriving DecidableEq, Repr

/-- A `{sha256}` record as it appears in the root document. -/
structure ShaRec where
  sha256 : String
  deriving DecidableEq, Repr

/-- The `source` object of a raw version entry. -/
structure RawSource where
  url : Option String
  deriving DecidableEq, Repr

/-- One raw version entry of a registry's version map. -/
structure RawRel where
  homepage : Option String
  source : Option RawSource
  time : Option String
  deriving DecidableEq, Repr

/-- A raw version map: version string to raw entry, insertion-ordered. -/
abbrev RawVersions := List (String × RawRel)

/-- The parsed root document (interface PackageMeta); at runtime the
values of `packages` are raw version maps. -/
structure PackageMeta where
  includes : Option (List (String × ShaRec))
  packages : Option (List (String × RawVersions))
  providerIncludes : Option (List (String × ShaRec))
  providers : Option (List (String × ShaRec))
  providersUrl : Option String
  deriving DecidableEq, Repr

/-- The normalized root projection (interface RegistryMeta). -/
structure RegistryMeta where
  files : Option (List RegistryFile)
  providerPackages : List (String × String)
  providersUrl : Option String
  includesFiles : Option (List RegistryFile)
  packages : Option (List (String × RawVersions))
  deriving DecidableEq, Repr

/-- A fetched shard (interface PackagistFile); at runtime the values of
`packages` are raw version maps. -/
structure PackagistFile where
  providers : List (String × RegistryFile)
  packages : Option (List (String × RawVersions))
  deriving DecidableEq, Repr

/-- One normalized release record. -/
structure Release where
  version : String
  gitRef : String
  releaseTimestamp : Option String
  deriving DecidableEq, Repr

/-- A normalized per-package result (interface ReleaseResult). -/
structure ReleaseResult where
  name : Option String
  releases : List Release
  homepage : Option String
  sourceUrl : Option String
  deriving DecidableEq, Repr

/-- The assembled per-registry view (interface AllPackages). -/
structure AllPackages where
  packages : Option (List (String × RawVersions))
  providersUrl : Option String
  providerPackages : List (String × String)
  includesPackages : List (String × ReleaseResult)
  deriving DecidableEq, Repr

/-- The structured error object surfaced by the transport. -/
structure HttpErr where
  statusCode : Option Nat
  code : Option String
  url : Option String
  host : Option String
  deriving DecidableEq, Repr

/-- A DatasourceError wrapping the underlying transport error. -/
structure DatasourceError where
  err : HttpErr
  deriving DecidableEq, Repr

/-- Request options (interface HttpOptions) as this datasource builds
them: an optional basic-auth string and an optional authorization
header. -/
structure HttpOptions where
  auth : Option String
  headersAuthorization : Option String
  deriving DecidableEq, Repr

/-- A record stored in the `datasource-packagist-files` cache. -/
structure FilesRec where
  res : PackagistFile
  sha256 : String
  deriving DecidableEq, Repr

/-- The process-wide registry resolution cache entry: `'pending'`, an
assembled view, or `null` after a failed resolution. -/
inductive RepoEntry
  | pending
  | resolved (v : AllPackages)
  | failed
  deriving DecidableEq, Repr

/-- Observable side effects, newest first in the trace. -/
inductive Ev
  | netFetch (url : String) (auth : Option String)
  | cacheGet (ns k : String)
  | cacheSet (ns k : String) (ttl : Nat)
  | logDebug (tag : String)
  | logWarn (tag : String)
  | logTrace (tag : String)
  deriving DecidableEq, Repr

/-- The external world: host rules and the network, one typed oracle per
endpoint family (the transport parses JSON into the expected shape). -/
structure Env where
  hostRule : String → Option String × Option String
  netMeta : String → Except HttpErr PackageMeta
  netFile : String → Except HttpErr PackagistFile
  netPkg : String → Except HttpErr (List (String × RawVersions))

/-- Mutable process state: the global repo cache, the two persistent
cache namespaces, and the event trace. -/
structure St where
  repoCache : List (String × RepoEntry)
  filesCache : List (String × FilesRec)
  orgCache : List (String × Option ReleaseResult)
  trace : List Ev
  deriving DecidableEq

/-- Append an event to the trace. -/
def St.emit (st : St) (e : Ev) : St :=
  { st with trace := e :: st.trace }

/-- getHostOpts: sets basic auth only when the host rule supplies both a
(truthy) username and a (truthy) password; never sets headers. -/
def getHostOpts (env : Env) (url : String) : HttpOptions :=
  let (username, password) := env.hostRule url
  if truthy username && truthy password then
    { auth := some (username.getD "" ++ ":" ++ password.getD "")
      headersAuthorization := none }
  else
    { auth := none, headersAuthorization := none }

/-- version.replace(/^v/, ''): strip a single leading lowercase v. -/
def stripV (v : String) : String :=
  if v.startsWith "v" then v.drop 1 else v

/-- The fold inside extractDepReleases: builds the release list while
threading the homepage/sourceUrl mutations of the surrounding dep. -/
def extractGo : List (String × RawRel) → Option String → Option String →
    List Release × Option String × Option String
  | [], h, s => ([], h, s)
  | (version, release) :: rest, h, s =>
    let h1 := if truthy release.homepage then release.homepage else h
    let s1 := match release.source with
      | some src => if truthy src.url then src.url else s
      | none => s
    let (tail, hf, sf) := extractGo rest h1 s1
    ({ version := stripV version, gitRef := version
       releaseTimestamp := release.time } :: tail, hf, sf)

/-- extractDepReleases: normalize a raw version map into a
ReleaseResult; a falsy map yields an empty release list. -/
def extractDepReleases (versions : Option RawVersions) : ReleaseResult :=
  match versions with
  | none => { name := none, releases := [], homepage := none, sourceUrl := none }
  | some vs =>
    let r := extractGo vs none none
    { name := none, releases := r.1, homepage := r.2.1, sourceUrl := r.2.2 }

/-- The URL of the root document fetched by getRegistryMeta. -/
def packagesJsonUrl (regUrl : String) : String :=
  urlResolve (ensureSlash regUrl) "packages.json"

/-- The catch block of getRegistryMeta: every branch logs and returns
null, so no error escapes. -/
def registryMetaCatch (st : St) (regUrl : String) (e : HttpErr) :
    Option RegistryMeta × St :=
  if e.code = some "ETIMEDOUT" then
    (none, st.emit (.logDebug ("Packagist timeout " ++ regUrl)))
  else if e.statusCode = some 401 ∨ e.statusCode = some 403 then
    (none, st.emit (.logDebug ("Unauthorized Packagist repository " ++ regUrl)))
  else if e.statusCode = some 404 ∧
      Option.any (fun u => u.endsWith "/packages.json") e.url = true then
    (none, st.emit (.logDebug ("Packagist repository not found " ++ regUrl)))
  else
    (none, st.emit (.logWarn "Packagist download error"))

/-- getRegistryMeta: fetch `<base>/packages.json` and project it into a
RegistryMeta; any transport error is mapped to null by the catch. -/
def getRegistryMeta (env : Env) (st : St) (regUrl : String) :
    Option RegistryMeta × St :=
  let url := packagesJsonUrl regUrl
  let opts := getHostOpts env url
  let st := st.emit (.netFetch url opts.auth)
  match env.netMeta url with
  | .error e => registryMetaCatch st regUrl e
  | .ok res =>
    let meta0 : RegistryMeta :=
      { files := none, providerPackages := [], providersUrl := none
        includesFiles := none, packages := res.packages }
    let meta1 := match res.includes with
      | none => meta0
      | some incs =>
        let fs := incs.map fun nv =>
          ({ key := replaceOnce nv.1 nv.2.sha256 "%hash%"
             sha256 := nv.2.sha256 } : RegistryFile)
        { meta0 with includesFiles := some fs }
    let meta2 := if truthy res.providersUrl then
        { meta1 with providersUrl := res.providersUrl }
      else meta1
    let meta3 := match res.providerIncludes with
      | none => meta2
      | some pis =>
        let fs := pis.map fun kv =>
          ({ key := kv.1, sha256 := kv.2.sha256 } : RegistryFile)
        { meta2 with files := some fs }
    let meta4 := match res.providers with
      | none => meta3
      | some provs =>
        let pp := provs.foldl (fun acc kv => insertA acc kv.1 kv.2.sha256)
          meta3.providerPackages
        { meta3 with providerPackages := pp }
    (some meta4, st)

/-- The namespace of the persistent shard cache. -/
def filesNs : String := "datasource-packagist-files"

/-- getPackagistFile: expand the %hash% placeholder, bypass the
persistent cache entirely when the host options carry credentials,
otherwise serve a hash-matching cache hit or fetch and write through
with a 1440-minute expiry. -/
def getPackagistFile (env : Env) (st : St) (regUrl : String)
    (file : RegistryFile) : Except HttpErr PackagistFile × St :=
  let fileName := replaceOnce file.key "%hash%" file.sha256
  let opts := getHostOpts env regUrl
  if opts.auth.isSome ∨ opts.headersAuthorization.isSome then
    let st := st.emit (.netFetch (regUrl ++ "/" ++ fileName) opts.auth)
    match env.netFile (regUrl ++ "/" ++ fileName) with
    | .ok body => (.ok body, st)
    | .error e => (.error e, st)
  else
    let cacheKey := regUrl ++ file.key
    let fetchStore := fun (st : St) =>
      let st := st.emit (.netFetch (regUrl ++ "/" ++ fileName) opts.auth)
      match env.netFile (regUrl ++ "/" ++ fileName) with
      | .ok body =>
        let st := st.emit (.cacheSet filesNs cacheKey 1440)
        let rec0 : FilesRec := { res := body, sha256 := file.sha256 }
        (Except.ok body,
         { st with filesCache := insertA st.filesCache cacheKey rec0 })
      | .error e => (Except.error e, st)
    let st := st.emit (.cacheGet filesNs cacheKey)
    match lookupA st.filesCache cacheKey with
    | some rec =>
      if rec.sha256 = file.sha256 then (.ok rec.res, st)
      else fetchStore st
    | none => fetchStore st

/-- Sequential realisation of the pAll fan-out over provider-includes
shard files: results are collected in list order, the first rejection
aborts the join. -/
def fetchFiles (env : Env) (regUrl : String) :
    St → List RegistryFile → Except HttpErr (List PackagistFile) × St
  | st, [] => (.ok [], st)
  | st, f :: rest =>
    match getPackagistFile env st regUrl f with
    | (.error e, st1) => (.error e, st1)
    | (.ok r, st1) =>
      match fetchFiles env regUrl st1 rest with
      | (.ok rs, st2) => (.ok (r :: rs), st2)
      | (.error e, st2) => (.error e, st2)

/-- Merge the providers entries of the resolved shard files into the
providerPackages map, later shards overwriting earlier ones. -/
def mergeProviders (resolvedFiles : List PackagistFile)
    (providerPackages : List (String × String)) : List (String × String) :=
  resolvedFiles.foldl
    (fun acc res =>
      res.providers.foldl (fun acc2 nv => insertA acc2 nv.1 nv.2.sha256) acc)
    providerPackages

/-- The sequential includes loop: fetch each includes shard and merge
its normalized packages into includesPackages. -/
def resolveIncludes (env : Env) (regUrl : String) :
    St → List RegistryFile → List (String × ReleaseResult) →
    Except HttpErr (List (String × ReleaseResult)) × St
  | st, [], acc => (.ok acc, st)
  | st, f :: rest, acc =>
    match getPackagistFile env st regUrl f with
    | (.error e, st1) => (.error e, st1)
    | (.ok res, st1) =>
      let acc1 := match res.packages with
        | none => acc
        | some pkgs =>
          pkgs.foldl
            (fun a kv =>
              let dep := { extractDepReleases (some kv.2) with name := some kv.1 }
              insertA a kv.1 dep)
            acc
      resolveIncludes env regUrl st1 rest acc1

/-- Outcome of getAllPackages: a value or null, a propagated transport
error, or a block on a pending entry left by another logical caller. -/
inductive GapOut
  | ok (r : Option AllPackages)
  | err (e : HttpErr)
  | stuckPending
  deriving DecidableEq, Repr

/-- The repo-cache key for a registry URL. -/
def repoKey (regUrl : String) : String := "packagist-" ++ regUrl

/-- getAllPackages: consult the global repo cache (a truthy entry is
returned, so a null FAILED entry falls through), install the pending
marker, assemble the registry view, and store the terminal entry. -/
def getAllPackages (env : Env) (st : St) (regUrl : String) : GapOut × St :=
  match lookupA st.repoCache (repoKey regUrl) with
  | some .pending => (.stuckPending, st)
  | some (.resolved v) => (.ok (some v), st)
  | _ =>
    let st := { st with repoCache := insertA st.repoCache (repoKey regUrl) .pending }
    match getRegistryMeta env st regUrl with
    | (none, st1) =>
      (.ok none,
       { st1 with repoCache := insertA st1.repoCache (repoKey regUrl) .failed })
    | (some meta, st1) =>
      let afterFiles : Except HttpErr (List (String × String)) × St :=
        match meta.files with
        | none => (.ok meta.providerPackages, st1)
        | some files =>
          match fetchFiles env regUrl st1 files with
          | (.error e, st2) => (.error e, st2)
          | (.ok resolvedFiles, st2) =>
            (.ok (mergeProviders resolvedFiles meta.providerPackages), st2)
      match afterFiles with
      | (.error e, st2) => (.err e, st2)
      | (.ok providerPackages, st2) =>
        let afterIncludes : Except HttpErr (List (String × ReleaseResult)) × St :=
          match meta.includesFiles with
          | none => (.ok [], st2)
          | some incFiles => resolveIncludes env regUrl st2 incFiles []
        match afterIncludes with
        | (.error e, st3) => (.err e, st3)
        | (.ok includesPackages, st3) =>
          let allPackages : AllPackages :=
            { packages := meta.packages, providersUrl := meta.providersUrl
              providerPackages := providerPackages
              includesPackages := includesPackages }
          (.ok (some allPackages),
           { st3 with repoCache :=
               insertA st3.repoCache (repoKey regUrl) (.resolved allPackages) })

/-- The namespace of the default-registry per-package cache. -/
def orgNs : String := "datasource-packagist-org"

/-- The default public registry. -/
def defaultRegUrl : String := "https://packagist.org"

/-- packagistOrgLookup: the default-registry fast path with its
10-minute per-package cache; a cached null is falsy and treated as a
miss, and the freshly computed dep (possibly null) is written back. -/
def packagistOrgLookup (env : Env) (st : St) (name : String) :
    Except HttpErr (Option ReleaseResult) × St :=
  let st := st.emit (.cacheGet orgNs name)
  match lookupA st.orgCache name with
  | some (some dep) => (.ok (some dep), st)
  | _ =>
    let pkgUrl := urlResolve defaultRegUrl ("/p/" ++ name ++ ".json")
    let st := st.emit (.netFetch pkgUrl none)
    match env.netPkg pkgUrl with
    | .error e => (.error e, st)
    | .ok pkgs =>
      let dep : Option ReleaseResult := match lookupA pkgs name with
        | some res =>
          some { extractDepReleases (some res) with name := some name }
        | none => none
      let st := if dep.isSome then st.emit (.logTrace "dep") else st
      let st := st.emit (.cacheSet orgNs name 10)
      (.ok dep, { st with orgCache := insertA st.orgCache name dep })

/-- Outcome of packageLookup: a result or null, a thrown
DatasourceError, or a block on a pending repo-cache entry. -/
inductive PLOut
  | ok (r : Option ReleaseResult)
  | thrown (d : DatasourceError)
  | stuck
  deriving DecidableEq, Repr

/-- The catch block of packageLookup: 404 or ENOTFOUND is a soft null;
an error whose host is packagist.org with a reset/timeout code or a 5xx
status is rethrown as a DatasourceError; anything else is logged and
becomes a soft null. -/
def packageLookupCatch (st : St) (name : String) (e : HttpErr) : PLOut × St :=
  if e.statusCode = some 404 ∨ e.code = some "ENOTFOUND" then
    (.ok none,
     st.emit (.logDebug ("Dependency lookup failure: not found " ++ name)))
  else if e.host = some "packagist.org" ∧
      (e.code = some "ECONNRESET" ∨ e.code = some "ETIMEDOUT") then
    (.thrown { err := e }, st)
  else if e.host = some "packagist.org" ∧
      Option.any (fun sc => 500 ≤ sc && sc < 600) e.statusCode = true then
    (.thrown { err := e }, st)
  else
    (.ok none, st.emit (.logWarn ("packagist registry failure: Unknown error " ++ name)))

/-- A JS TypeError raised by the lookup body itself (for example when
providersUrl is undefined); it carries no transport fields. -/
def jsTypeError : HttpErr :=
  { statusCode := none, code := none, url := none, host := none }

/-- packageLookup: the default-registry fast path, otherwise the
assembled view tried in layout priority order (flat packages, then
includes, then provider shard with a per-package fetch); every error of
the body goes through the catch. -/
def packageLookup (env : Env) (st : St) (regUrl name : String) : PLOut × St :=
  if regUrl = defaultRegUrl then
    match packagistOrgLookup env st name with
    | (.ok d, st1) => (.ok d, st1)
    | (.error e, st1) => packageLookupCatch st1 name e
  else
    match getAllPackages env st regUrl with
    | (.stuckPending, st1) => (.stuck, st1)
    | (.err e, st1) => packageLookupCatch st1 name e
    | (.ok none, st1) => (.ok none, st1)
    | (.ok (some allPackages), st1) =>
      match allPackages.packages.bind (fun pkgs => lookupA pkgs name) with
      | some versions =>
        (.ok (some { extractDepReleases (some versions) with name := some name }),
         st1)
      | none =>
        match lookupA allPackages.includesPackages name with
        | some dep => (.ok (some dep), st1)
        | none =>
          match lookupA allPackages.providerPackages name with
          | none => (.ok none, st1)
          | some hash =>
            match allPackages.providersUrl with
            | none => packageLookupCatch st1 name jsTypeError
            | some pUrl =>
              let pkgUrl := urlResolve regUrl
                (replaceOnce (replaceOnce pUrl "%package%" name) "%hash%" hash)
              let opts := getHostOpts env regUrl
              let st2 := st1.emit (.netFetch pkgUrl opts.auth)
              match env.netPkg pkgUrl with
              | .error e => packageLookupCatch st2 name e
              | .ok pkgs =>
                let dep :=
                  { extractDepReleases (lookupA pkgs name) with name := some name }
                (.ok (some dep), st2.emit (.logTrace "dep"))

/-- Run packageLookup over a list of registries, returning the final
state provided every lookup soft-fails (returns null). -/
def softFailRun (env : Env) (name : String) : St → List String → Option St
  | st, [] => some st
  | st, regUrl :: rest =>
    match packageLookup env st regUrl name with
    | (.ok none, st1) => softFailRun env name st1 rest
    | _ => none

/-- Outcome of getReleases. -/
inductive GROut
  | ok (r : Option ReleaseResult)
  | thrown (d : DatasourceError)
  | stuck
  deriving DecidableEq, Repr

/-- The registry loop of getReleases: first truthy lookup result wins;
a thrown DatasourceError propagates (getReleases has no catch). -/
def lookupLoop (env : Env) (name : String) :
    St → List String → GROut × St
  | st, [] => (.ok none, st)
  | st, regUrl :: rest =>
    match packageLookup env st regUrl name with
    | (.ok (some r), st1) => (.ok (some r), st1)
    | (.ok none, st1) => lookupLoop env name st1 rest
    | (.thrown d, st1) => (.thrown d, st1)
    | (.stuck, st1) => (.stuck, st1)

/-- getReleases: try the configured registries in order, defaulting to
the single default registry when the list is absent or empty. -/
def getReleases (env : Env) (st : St) (lookupName : String)
    (registryUrls : Option (List String)) : GROut × St :=
  let registries := match registryUrls with
    | some (u :: us) => u :: us
    | _ => [defaultRegUrl]
  lookupLoop env lookupName st registries

/-- Whether an event is a network fetch. -/
def isNetFetch : Ev → Bool
  | .netFetch _ _ => true
  | _ => false

/-- Whether an event is a persistent-cache interaction. -/
def isCacheEv : Ev → Bool
  | .cacheGet _ _ => true
  | .cacheSet _ _ _ => true
  | _ => false

/-- Number of network fetches recorded in a trace. -/
def netCount (evs : List Ev) : Nat := evs.countP isNetFetch

/-! Concrete fixtures used to exercise the development on closed inputs. -/

/-- An empty mutable state. -/
def st0 : St := { repoCache := [], filesCache := [], orgCache := [], trace := [] }

/-- A raw version entry with a timestamp only. -/
def rr0 : RawRel := { homepage := none, source := none, time := some "2020-01-01" }

/-- A one-entry raw version map keyed by a v-prefixed version. -/
def vm0 : RawVersions := [("v1.0.0", rr0)]

/-- A trivial shard. -/
def pf0 : PackagistFile := { providers := [], packages := none }

/-- A root document carrying only a flat packages map with package a. -/
def pmFlat : PackageMeta :=
  { includes := none, packages := some [("a", vm0)], providerIncludes := none
    providers := none, providersUrl := none }

/-- A shard descriptor. -/
def file0 : RegistryFile := { key := "p/%hash%.json", sha256 := "h1" }

/-- A timeout transport error. -/
def errT : HttpErr :=
  { statusCode := none, code := some "ETIMEDOUT", url := none, host := none }

/-- A 503 from the default registry host. -/
def err5 : HttpErr :=
  { statusCode := some 503, code := none, url := none
    host := some "packagist.org" }

/-- A 404 on a root document. -/
def err404 : HttpErr :=
  { statusCode := some 404, code := none
    url := some "https://a/packages.json", host := some "a" }

/-- Environment with full credentials for every host and a working
network. -/
def envAuth : Env :=
  { hostRule := fun _ => (some "user", some "pass")
    netMeta := fun _ => .ok pmFlat
    netFile := fun _ => .ok pf0
    netPkg := fun _ => .ok [] }

/-- Environment with no credentials and a working network serving the
flat root document everywhere. -/
def envAnon : Env :=
  { hostRule := fun _ => (none, none)
    netMeta := fun _ => .ok pmFlat
    netFile := fun _ => .ok pf0
    netPkg := fun _ => .ok [("a", vm0)] }

/-- Environment with a username but no password. -/
def envHalf : Env :=
  { hostRule := fun _ => (some "user", none)
    netMeta := fun _ => .ok pmFlat
    netFile := fun _ => .ok pf0
    netPkg := fun _ => .ok [] }

/-- Environment whose network always times out. -/
def envDown : Env :=
  { hostRule := fun _ => (none, none)
    netMeta := fun _ => .error errT
    netFile := fun _ => .error errT
    netPkg := fun _ => .error errT }

/-- Environment where registry a 404s on its root document and registry
b serves the flat root document. -/
def envAB : Env :=
  { hostRule := fun _ => (none, none)
    netMeta := fun u =>
      if u = packagesJsonUrl "https://b" then .ok pmFlat else .error err404
    netFile := fun _ => .ok pf0
    netPkg := fun _ => .ok [] }

/-- Environment whose per-package endpoint never lists any package. -/
def envNoPkg : Env :=
  { hostRule := fun _ => (none, none)
    netMeta := fun _ => .ok pmFlat
    netFile := fun _ => .ok pf0
    netPkg := fun _ => .ok [] }

/-- Environment whose per-package endpoint answers 503 from the default
registry host. -/
def envErr5 : Env :=
  { hostRule := fun _ => (none, none)
    netMeta := fun _ => .ok pmFlat
    netFile := fun _ => .ok pf0
    netPkg := fun _ => .error err5 }

/-- The state after the default-registry fast path has read its cache
and hit the failing per-package endpoint. -/
def stAfterOrgErr : St :=
  { st0 with trace :=
      [Ev.netFetch (urlResolve defaultRegUrl ("/p/" ++ "a" ++ ".json")) none,
       Ev.cacheGet orgNs "a"] }

/-- State with a FAILED (null) repo-cache entry for registry r. -/
def stFailed : St := { st0 with repoCache := [(repoKey "https://r", .failed)] }

/-- An assembled view whose flat packages map and provider hashes both
contain package a. -/
def apBoth : AllPackages :=
  { packages := some [("a", vm0)], providersUrl := some "/p/%package%$%hash%.json"
    providerPackages := [("a", "h2"), ("b", "h3")]
    includesPackages := [("b", { name := some "b", releases := []
                                 homepage := none, sourceUrl := none })] }

/-- State with a RESOLVED repo-cache entry for registry r. -/
def stResolved : St :=
  { st0 with repoCache := [(repoKey "https://r", .resolved apBoth)] }

/-- State whose shard cache holds file0's content under registry r with
the matching hash. -/
def stHit : St :=
  { st0 with filesCache := [("https://r" ++ file0.key,
      { res := pf0, sha256 := "h1" })] }

/-- State whose shard cache holds a stale record (hash mismatch) for
file0 under registry r. -/
def stStale : St :=
  { st0 with filesCache := [("https://r" ++ file0.key,
      { res := pf0, sha256 := "old" })] }

/-- State whose default-registry cache holds a stored null for package
a. -/
def stOrgNull : St := { st0 with orgCache := [("a", none)] }

/-- An assembled view with no packages under any layout. -/
def apEmpty : AllPackages :=
  { packages := none, providersUrl := none, providerPackages := []
    includesPackages := [] }

/-- State where registry a resolves to an empty view and registry b to a
view whose flat packages map contains package a. -/
def stAB : St :=
  { st0 with repoCache := [(repoKey "https://a", .resolved apEmpty),
                           (repoKey "https://b", .resolved apBoth)] }

/-- The normalized result for package a out of vm0. -/
def depA : ReleaseResult :=
  { extractDepReleases (some vm0) with name := some "a" }

/-! Helper lemmas shared by the claim proofs. -/

theorem lookupA_insertA_self {β : Type} (l : List (String × β)) (k : String)
    (v : β) : lookupA (insertA l k v) k = some v := by
  induction l with
  | nil => simp [insertA, lookupA]
  | cons hd tl ih =>
    by_cases hk : hd.1 = k
    · simp [insertA, hk, lookupA]
    · simp [insertA, hk, lookupA, ih]

theorem netCount_append (t l : List Ev) :
    netCount (t ++ l) = netCount t + netCount l := by
  simp [netCount, List.countP_append]

theorem getPackagistFile_suffix (env : Env) (st : St) (regUrl : String)
    (f : RegistryFile) :
    ∃ t, (getPackagistFile env st regUrl f).2.trace = t ++ st.trace := by
  unfold getPackagistFile
  dsimp only
  split
  · split
    · exact ⟨[_], rfl⟩
    · exact ⟨[_], rfl⟩
  · split
    · split
      · exact ⟨[_], rfl⟩
      · split
        · exact ⟨[_, _, _], rfl⟩
        · exact ⟨[_, _], rfl⟩
    · split
      · exact ⟨[_, _, _], rfl⟩
      · exact ⟨[_, _], rfl⟩

theorem fetchFiles_suffix (env : Env) (regUrl : String) (fs : List RegistryFile)
    (st : St) :
    ∃ t, (fetchFiles env regUrl st fs).2.trace = t ++ st.trace := by
  induction fs generalizing st with
  | nil => exact ⟨[], rfl⟩
  | cons f rest ih =>
    unfold fetchFiles
    obtain ⟨t1, ht1⟩ := getPackagistFile_suffix env st regUrl f
    split
    · next st1 heq =>
      rw [show st1 = (getPackagistFile env st regUrl f).2 from (congrArg Prod.snd heq).symm]
      exact ⟨t1, ht1⟩
    · next r st1 heq =>
      obtain ⟨t2, ht2⟩ := ih st1
      have hst1 : st1 = (getPackagistFile env st regUrl f).2 :=
        (congrArg Prod.snd heq).symm
      split
      · next rs st2 heq2 =>
        have hst2 : st2 = (fetchFiles env regUrl st1 rest).2 :=
          (congrArg Prod.snd heq2).symm
        refine ⟨t2 ++ t1, ?_⟩
        rw [hst2, ht2, hst1, ht1, List.append_assoc]
      · next e2 st2 heq2 =>
        have hst2 : st2 = (fetchFiles env regUrl st1 rest).2 :=
          (congrArg Prod.snd heq2).symm
        refine ⟨t2 ++ t1, ?_⟩
        rw [hst2, ht2, hst1, ht1, List.append_assoc]

theorem resolveIncludes_suffix (env : Env) (regUrl : String)
    (fs : List RegistryFile) (st : St) (acc : List (String × ReleaseResult)) :
    ∃ t, (resolveIncludes env regUrl st fs acc).2.trace = t ++ st.trace := by
  induction fs generalizing st acc with
  | nil => exact ⟨[], rfl⟩
  | cons f rest ih =>
    unfold resolveIncludes
    obtain ⟨t1, ht1⟩ := getPackagistFile_suffix env st regUrl f
    split
    · next st1 heq =>
      rw [show st1 = (getPackagistFile env st regUrl f).2 from (congrArg Prod.snd heq).symm]
      exact ⟨t1, ht1⟩
    · next r st1 heq =>
      have hst1 : st1 = (getPackagistFile env st regUrl f).2 :=
        (congrArg Prod.snd heq).symm
      obtain ⟨t2, ht2⟩ := ih st1 _
      refine ⟨t2 ++ t1, ?_⟩
      rw [ht2, hst1, ht1, List.append_assoc]

theorem gap_resolved_eq (env : Env) (st : St) (regUrl : String)
    (v : AllPackages)
    (h : lookupA st.repoCache (repoKey regUrl) = some (.resolved v)) :
    getAllPackages env st regUrl = (.ok (some v), st) := by
  unfold getAllPackages
  rw [h]

theorem getRegistryMeta_trace (env : Env) (st : St) (regUrl : String) :
    ∃ t, (getRegistryMeta env st regUrl).2.trace =
      t ++ Ev.netFetch (packagesJsonUrl regUrl)
        (getHostOpts env (packagesJsonUrl regUrl)).auth :: st.trace := by
  unfold getRegistryMeta
  dsimp only
  split
  · unfold registryMetaCatch
    split
    · exact ⟨[_], rfl⟩
    · split
      · exact ⟨[_], rfl⟩
      · split
        · exact ⟨[_], rfl⟩
        · exact ⟨[_], rfl⟩
  · exact ⟨[], rfl⟩

theorem extractGo_fst (l : List (String × RawRel)) (h s : Option String) :
    (extractGo l h s).1 = l.map (fun kv =>
      { version := stripV kv.1, gitRef := kv.1
        releaseTimestamp := kv.2.time }) := by
  induction l generalizing h s with
  | nil => rfl
  | cons hd tl ih =>
    obtain ⟨version, release⟩ := hd
    simp [extractGo, ih]

theorem packageLookupCatch_thrown (st : St) (name : String) (e : HttpErr)
    (d : DatasourceError) (st' : St)
    (h : packageLookupCatch st name e = (.thrown d, st')) :
    d.err = e ∧ e.host = some "packagist.org" ∧
    e.statusCode ≠ some 404 ∧ e.code ≠ some "ENOTFOUND" ∧
    (e.code = some "ECONNRESET" ∨ e.code = some "ETIMEDOUT" ∨
      Option.any (fun sc => 500 ≤ sc && sc < 600) e.statusCode = true) := by
  unfold packageLookupCatch at h
  split at h
  · simp at h
  · rename_i hnot
    push_neg at hnot
    split at h
    · rename_i hcond
      simp only [Prod.mk.injEq] at h
      obtain ⟨h1, h2⟩ := h
      cases h1
      exact ⟨rfl, hcond.1, hnot.1, hnot.2,
        hcond.2.elim Or.inl (fun b => Or.inr (Or.inl b))⟩
    · split at h
      · rename_i hcond
        simp only [Prod.mk.injEq] at h
        obtain ⟨h1, h2⟩ := h
        cases h1
        exact ⟨rfl, hcond.1, hnot.1, hnot.2, Or.inr (Or.inr hcond.2)⟩
      · simp at h

theorem gap_failed_trace (env : Env) (st : St) (regUrl : String)
    (hf : lookupA st.repoCache (repoKey regUrl) = some .failed) :
    ∃ t, (getAllPackages env st regUrl).2.trace =
      t ++ Ev.netFetch (packagesJsonUrl regUrl)
        (getHostOpts env (packagesJsonUrl regUrl)).auth :: st.trace := by
  unfold getAllPackages
  rw [hf]
  dsimp only
  set st1 : St :=
    { st with repoCache := insertA st.repoCache (repoKey regUrl) .pending }
    with hst1
  obtain ⟨t0, ht0⟩ := getRegistryMeta_trace env st1 regUrl
  have htr : st1.trace = st.trace := rfl
  rw [htr] at ht0
  rcases hm : getRegistryMeta env st1 regUrl with ⟨mres, st2⟩
  rw [hm] at ht0
  dsimp only at ht0
  cases mres with
  | none =>
    dsimp only
    exact ⟨t0, ht0⟩
  | some meta =>
    dsimp only
    rcases hMF : meta.files with _ | files
    · dsimp only
      rcases hMI : meta.includesFiles with _ | incs
      · exact ⟨t0, ht0⟩
      · dsimp only
        obtain ⟨t1, ht1⟩ := resolveIncludes_suffix env regUrl incs st2 []
        rcases hRI : resolveIncludes env regUrl st2 incs [] with ⟨rres, st3⟩
        rw [hRI] at ht1
        dsimp only at ht1
        cases rres with
        | error e =>
          exact ⟨t1 ++ t0, by dsimp only; rw [ht1, ht0, List.append_assoc]⟩
        | ok incPkgs =>
          exact ⟨t1 ++ t0, by dsimp only; rw [ht1, ht0, List.append_assoc]⟩
    · dsimp only
      obtain ⟨t1, ht1⟩ := fetchFiles_suffix env regUrl files st2
      rcases hFF : fetchFiles env regUrl st2 files with ⟨fres, st3⟩
      rw [hFF] at ht1
      dsimp only at ht1
      cases fres with
      | error e =>
        exact ⟨t1 ++ t0, by dsimp only; rw [ht1, ht0, List.append_assoc]⟩
      | ok resolvedFiles =>
        dsimp only
        rcases hMI : meta.includesFiles with _ | incs
        · exact ⟨t1 ++ t0, by dsimp only; rw [ht1, ht0, List.append_assoc]⟩
        · dsimp only
          obtain ⟨t2, ht2⟩ := resolveIncludes_suffix env regUrl incs st3 []
          rcases hRI : resolveIncludes env regUrl st3 incs [] with ⟨rres, st4⟩
          rw [hRI] at ht2
          dsimp only at ht2
          cases rres with
          | error e =>
            exact ⟨t2 ++ t1 ++ t0,
              by dsimp only; rw [ht2, ht1, ht0, List.append_assoc, List.append_assoc]⟩
          | ok incPkgs =>
            exact ⟨t2 ++ t1 ++ t0,
              by dsimp only; rw [ht2, ht1, ht0, List.append_assoc, List.append_assoc]⟩

theorem softFailRun_append (env : Env) (name : String) (pre : List String)
    (st st1 : St) (l : List String)
    (h : softFailRun env name st pre = some st1) :
    lookupLoop env name st (pre ++ l) = lookupLoop env name st1 l := by
  induction pre generalizing st with
  | nil =>
    unfold softFailRun at h
    injection h with h
    subst h
    rfl
  | cons r rest ih =>
    unfold softFailRun at h
    rcases hpl : packageLookup env st r name with ⟨out, stx⟩
    rw [hpl] at h
    show lookupLoop env name st (r :: (rest ++ l)) = _
    rw [lookupLoop, hpl]
    cases out with
    | ok o =>
      cases o with
      | none =>
        dsimp only at h ⊢
        exact ih stx h
      | some r2 => cases h
    | thrown d => cases h
    | stuck => cases h

/-! The claim theorems. -/

/-- Claim C5: for every raw version map, extractDepReleases produces
exactly one release per version key, in order; each release's version is
the key with a single optional leading v stripped, its gitRef equals the
original key unchanged, and its releaseTimestamp is the entry's time
field carried through verbatim. -/
theorem extractDepReleases_per_key (vs : RawVersions) :
    (extractDepReleases (some vs)).releases =
      vs.map (fun kv =>
        { version := if kv.1.startsWith "v" then kv.1.drop 1 else kv.1
          gitRef := kv.1
          releaseTimestamp := kv.2.time }) := by
  unfold extractDepReleases
  dsimp only
  rw [extractGo_fst]
  simp [stripV]

/-- Claim C6: getRegistryMeta never propagates an exception: whatever
error the root-document fetch fails with (timeout, 401, 403, 404 on
packages.json, or anything else), the result is null. -/
theorem getRegistryMeta_soft_failure (env : Env) (st : St) (regUrl : String)
    (e : HttpErr) (h : env.netMeta (packagesJsonUrl regUrl) = .error e) :
    (getRegistryMeta env st regUrl).1 = none := by
  unfold getRegistryMeta
  dsimp only
  rw [h]
  dsimp only
  unfold registryMetaCatch
  split_ifs <;> rfl

/-- Witness for C6: a concrete timeout error yields null. -/
theorem getRegistryMeta_soft_failure_witness :
    envDown.netMeta (packagesJsonUrl "https://r") = .error errT ∧
    (getRegistryMeta envDown st0 "https://r").1 = none :=
  ⟨rfl, getRegistryMeta_soft_failure envDown st0 "https://r" errT rfl⟩

/-- Claim C2: when the host-credential lookup for the registry URL
yields an auth option (or an authorization header), getPackagistFile
fetches the shard directly and performs no persistent-cache interaction
at all: every cache store is left unchanged and the only emitted event
is the single network fetch. -/
theorem getPackagistFile_auth_bypasses_cache (env : Env) (st : St)
    (regUrl : String) (file : RegistryFile)
    (h : (getHostOpts env regUrl).auth.isSome = true ∨
         (getHostOpts env regUrl).headersAuthorization.isSome = true) :
    (getPackagistFile env st regUrl file).2.filesCache = st.filesCache ∧
    (getPackagistFile env st regUrl file).2.orgCache = st.orgCache ∧
    (getPackagistFile env st regUrl file).2.repoCache = st.repoCache ∧
    (getPackagistFile env st regUrl file).2.trace =
      Ev.netFetch (regUrl ++ "/" ++ replaceOnce file.key "%hash%" file.sha256)
        (getHostOpts env regUrl).auth :: st.trace := by
  unfold getPackagistFile
  dsimp only
  rw [if_pos h]
  split <;> exact ⟨rfl, rfl, rfl, rfl⟩

/-- Witness for C2: with concrete credentials configured, the shard
fetch leaves every cache store untouched. -/
theorem getPackagistFile_auth_bypasses_cache_witness :
    ((getHostOpts envAuth "https://r").auth.isSome = true ∨
     (getHostOpts envAuth "https://r").headersAuthorization.isSome = true) ∧
    ((getPackagistFile envAuth st0 "https://r" file0).2.filesCache =
        st0.filesCache ∧
     (getPackagistFile envAuth st0 "https://r" file0).2.orgCache =
        st0.orgCache ∧
     (getPackagistFile envAuth st0 "https://r" file0).2.repoCache =
        st0.repoCache ∧
     (getPackagistFile envAuth st0 "https://r" file0).2.trace =
       Ev.netFetch ("https://r" ++ "/" ++ replaceOnce file0.key "%hash%" file0.sha256)
         (getHostOpts envAuth "https://r").auth :: st0.trace) :=
  ⟨Or.inl (by decide),
   getPackagistFile_auth_bypasses_cache envAuth st0 "https://r" file0
     (Or.inl (by decide))⟩

/-- Claim C9: when the host rule for a registry URL supplies only a
username or only a password (not both), getHostOpts sets no auth option,
so the shard fetch is treated as fully anonymous: getPackagistFile reads
the persistent cache, and on a cache miss with a successful fetch writes
the shard back to it. -/
theorem getHostOpts_partial_credentials_anonymous (env : Env) (st : St)
    (regUrl : String) (file : RegistryFile)
    (h : truthy (env.hostRule regUrl).1 ≠ truthy (env.hostRule regUrl).2) :
    getHostOpts env regUrl = { auth := none, headersAuthorization := none } ∧
    (∃ t, (getPackagistFile env st regUrl file).2.trace =
       t ++ Ev.cacheGet filesNs (regUrl ++ file.key) :: st.trace) ∧
    (∀ body,
       lookupA st.filesCache (regUrl ++ file.key) = none →
       env.netFile (regUrl ++ "/" ++ replaceOnce file.key "%hash%" file.sha256) =
         .ok body →
       lookupA (getPackagistFile env st regUrl file).2.filesCache
           (regUrl ++ file.key) =
         some { res := body, sha256 := file.sha256 }) := by
  have hb : (truthy (env.hostRule regUrl).1 &&
      truthy (env.hostRule regUrl).2) = false := by
    cases hA : truthy (env.hostRule regUrl).1 <;>
      cases hB : truthy (env.hostRule regUrl).2 <;> simp_all
  have hopts : getHostOpts env regUrl =
      { auth := none, headersAuthorization := none } := by
    unfold getHostOpts
    dsimp only
    rw [hb]
    rfl
  refine ⟨hopts, ?_, ?_⟩
  · unfold getPackagistFile
    dsimp only
    simp only [hopts]
    rw [if_neg (by simp)]
    dsimp only [St.emit]
    split
    · split
      · exact ⟨[], rfl⟩
      · split
        · exact ⟨[_, _], rfl⟩
        · exact ⟨[_], rfl⟩
    · split
      · exact ⟨[_, _], rfl⟩
      · exact ⟨[_], rfl⟩
  · intro body hmiss hnet
    unfold getPackagistFile
    dsimp only
    simp only [hopts]
    rw [if_neg (by simp)]
    dsimp only [St.emit]
    rw [hmiss, hnet]
    exact lookupA_insertA_self _ _ _

/-- Witness for C9: a concrete host rule with a username only leads to a
cache read and a cache write-through. -/
theorem getHostOpts_partial_credentials_anonymous_witness :
    truthy (envHalf.hostRule "https://r").1 ≠ truthy (envHalf.hostRule "https://r").2 ∧
    (getHostOpts envHalf "https://r" =
       { auth := none, headersAuthorization := none } ∧
     (∃ t, (getPackagistFile envHalf st0 "https://r" file0).2.trace =
        t ++ Ev.cacheGet filesNs ("https://r" ++ file0.key) :: st0.trace) ∧
     (∀ body,
        lookupA st0.filesCache ("https://r" ++ file0.key) = none →
        envHalf.netFile ("https://r" ++ "/" ++ replaceOnce file0.key "%hash%" file0.sha256) =
          .ok body →
        lookupA (getPackagistFile envHalf st0 "https://r" file0).2.filesCache
            ("https://r" ++ file0.key) =
          some { res := body, sha256 := file0.sha256 })) :=
  ⟨by decide,
   getHostOpts_partial_credentials_anonymous envHalf st0 "https://r" file0
     (by decide)⟩

/-- Claim C3: for an anonymous (credential-less) shard fetch,
getPackagistFile returns with zero network fetches if and only if the
persistent cache holds a record under key registryUrl ++ shard key whose
stored sha256 equals the requested one (and then it returns the cached
content); on a miss or hash mismatch it fetches over the network and
writes the result with its sha256 back with a 1440-minute expiry. -/
theorem getPackagistFile_anon_cache_policy (env : Env) (st : St)
    (regUrl : String) (file : RegistryFile)
    (hano : ¬(truthy (env.hostRule regUrl).1 = true ∧
              truthy (env.hostRule regUrl).2 = true)) :
    ((netCount (getPackagistFile env st regUrl file).2.trace =
        netCount st.trace) ↔
      (∃ rec, lookupA st.filesCache (regUrl ++ file.key) = some rec ∧
        rec.sha256 = file.sha256)) ∧
    (∀ rec, lookupA st.filesCache (regUrl ++ file.key) = some rec →
      rec.sha256 = file.sha256 →
      (getPackagistFile env st regUrl file).1 = .ok rec.res ∧
      (getPackagistFile env st regUrl file).2.trace =
        Ev.cacheGet filesNs (regUrl ++ file.key) :: st.trace) ∧
    (∀ body,
      (∀ rec, lookupA st.filesCache (regUrl ++ file.key) = some rec →
        rec.sha256 ≠ file.sha256) →
      env.netFile (regUrl ++ "/" ++ replaceOnce file.key "%hash%" file.sha256) =
        .ok body →
      (getPackagistFile env st regUrl file).1 = .ok body ∧
      lookupA (getPackagistFile env st regUrl file).2.filesCache
          (regUrl ++ file.key) =
        some { res := body, sha256 := file.sha256 } ∧
      (getPackagistFile env st regUrl file).2.trace =
        Ev.cacheSet filesNs (regUrl ++ file.key) 1440 ::
        Ev.netFetch (regUrl ++ "/" ++ replaceOnce file.key "%hash%" file.sha256)
          none ::
        Ev.cacheGet filesNs (regUrl ++ file.key) :: st.trace) := by
  have hb : (truthy (env.hostRule regUrl).1 &&
      truthy (env.hostRule regUrl).2) = false := by
    cases hA : truthy (env.hostRule regUrl).1 <;>
      cases hB : truthy (env.hostRule regUrl).2 <;> simp_all
  have hopts : getHostOpts env regUrl =
      { auth := none, headersAuthorization := none } := by
    unfold getHostOpts
    dsimp only
    rw [hb]
    rfl
  have hmain : getPackagistFile env st regUrl file =
      (match lookupA st.filesCache (regUrl ++ file.key) with
       | some rec =>
         if rec.sha256 = file.sha256 then
           (Except.ok rec.res,
            st.emit (.cacheGet filesNs (regUrl ++ file.key)))
         else
           (match env.netFile
               (regUrl ++ "/" ++ replaceOnce file.key "%hash%" file.sha256) with
            | .ok body =>
              (Except.ok body,
               { repoCache := st.repoCache
                 filesCache := insertA st.filesCache (regUrl ++ file.key)
                   { res := body, sha256 := file.sha256 }
                 orgCache := st.orgCache
                 trace := Ev.cacheSet filesNs (regUrl ++ file.key) 1440 ::
                   Ev.netFetch
                     (regUrl ++ "/" ++ replaceOnce file.key "%hash%" file.sha256)
                     none ::
                   Ev.cacheGet filesNs (regUrl ++ file.key) :: st.trace })
            | .error e =>
              (Except.error e,
               ((st.emit (.cacheGet filesNs (regUrl ++ file.key))).emit
                 (.netFetch
                   (regUrl ++ "/" ++ replaceOnce file.key "%hash%" file.sha256)
                   none))))
       | none =>
         (match env.netFile
             (regUrl ++ "/" ++ replaceOnce file.key "%hash%" file.sha256) with
          | .ok body =>
            (Except.ok body,
             { repoCache := st.repoCache
               filesCache := insertA st.filesCache (regUrl ++ file.key)
                 { res := body, sha256 := file.sha256 }
               orgCache := st.orgCache
               trace := Ev.cacheSet filesNs (regUrl ++ file.key) 1440 ::
                 Ev.netFetch
                   (regUrl ++ "/" ++ replaceOnce file.key "%hash%" file.sha256)
                   none ::
                 Ev.cacheGet filesNs (regUrl ++ file.key) :: st.trace })
          | .error e =>
            (Except.error e,
             ((st.emit (.cacheGet filesNs (regUrl ++ file.key))).emit
               (.netFetch
                 (regUrl ++ "/" ++ replaceOnce file.key "%hash%" file.sha256)
                 none))))) := by
    unfold getPackagistFile
    dsimp only
    simp only [hopts]
    rw [if_neg (by simp)]
    rfl
  rw [hmain]
  rcases hlk : lookupA st.filesCache (regUrl ++ file.key) with _ | rec
  · rcases hnf : env.netFile
        (regUrl ++ "/" ++ replaceOnce file.key "%hash%" file.sha256) with e | body
    · refine ⟨?_, ?_, ?_⟩
      · constructor
        · intro hcnt
          exfalso
          simp [St.emit, netCount, isNetFetch, List.countP_cons] at hcnt
        · rintro ⟨rec, hrec, -⟩
          cases hrec
      · intro rec hrec
        cases hrec
      · intro body _ hok
        cases hok
    · refine ⟨?_, ?_, ?_⟩
      · constructor
        · intro hcnt
          exfalso
          simp [netCount, isNetFetch, List.countP_cons] at hcnt
        · rintro ⟨rec, hrec, -⟩
          cases hrec
      · intro rec hrec
        cases hrec
      · intro body2 _ hok
        cases hok
        exact ⟨rfl, lookupA_insertA_self _ _ _, rfl⟩
  · dsimp only
    by_cases hsha : rec.sha256 = file.sha256
    · rw [if_pos hsha]
      refine ⟨?_, ?_, ?_⟩
      · constructor
        · intro _
          exact ⟨rec, rfl, hsha⟩
        · intro _
          simp [St.emit, netCount, isNetFetch, List.countP_cons]
      · intro rec2 hrec2 _
        cases hrec2
        exact ⟨rfl, rfl⟩
      · intro body hno hok
        exact absurd hsha (hno rec rfl)
    · rw [if_neg hsha]
      rcases hnf : env.netFile
          (regUrl ++ "/" ++ replaceOnce file.key "%hash%" file.sha256) with e | body
      · refine ⟨?_, ?_, ?_⟩
        · constructor
          · intro hcnt
            exfalso
            simp [St.emit, netCount, isNetFetch, List.countP_cons] at hcnt
          · rintro ⟨rec2, hrec2, hsha2⟩
            cases hrec2
            exact absurd hsha2 hsha
        · intro rec2 hrec2 hsha2
          cases hrec2
          exact absurd hsha2 hsha
        · intro body _ hok
          cases hok
      · refine ⟨?_, ?_, ?_⟩
        · constructor
          · intro hcnt
            exfalso
            simp [netCount, isNetFetch, List.countP_cons] at hcnt
          · rintro ⟨rec2, hrec2, hsha2⟩
            cases hrec2
            exact absurd hsha2 hsha
        · intro rec2 hrec2 hsha2
          cases hrec2
          exact absurd hsha2 hsha
        · intro body2 _ hok
          cases hok
          exact ⟨rfl, lookupA_insertA_self _ _ _, rfl⟩

/-- Witness for C3: a matching concrete cache record is served without a
network fetch. -/
theorem getPackagistFile_anon_cache_policy_witness :
    (¬(truthy (envAnon.hostRule "https://r").1 = true ∧
       truthy (envAnon.hostRule "https://r").2 = true)) ∧
    ((netCount (getPackagistFile envAnon stHit "https://r" file0).2.trace =
        netCount stHit.trace) ↔
      (∃ rec, lookupA stHit.filesCache ("https://r" ++ file0.key) = some rec ∧
        rec.sha256 = file0.sha256)) :=
  ⟨by decide,
   (getPackagistFile_anon_cache_policy envAnon stHit "https://r" file0
     (by decide)).1⟩

/-- Counterexample to C1 as stated: with a FAILED (null) resolution
cache entry stored for a registry, a subsequent getAllPackages call does
not return the terminal null — the stored null is falsy, so the call
re-runs the root fetch and here resolves the registry. -/
theorem getAllPackages_failed_not_terminal_cex :
    lookupA stFailed.repoCache (repoKey "https://r") = some .failed ∧
    (getAllPackages envAnon stFailed "https://r").1 ≠ .ok none ∧
    netCount (getAllPackages envAnon stFailed "https://r").2.trace ≠
      netCount stFailed.trace := by decide

/-- Claim C1 (amended): once the registry resolution cache entry is
RESOLVED, it is permanent: every later getAllPackages call returns the
same view with the state untouched and no fetch.  A FAILED (null) entry
however is not terminal: a later call re-runs the root fetch and
assembly (the network-fetch count strictly increases) instead of
returning the cached null without fetching. -/
theorem getAllPackages_cache_terminal (env : Env) (st : St)
    (regUrl : String) :
    (∀ v, lookupA st.repoCache (repoKey regUrl) = some (.resolved v) →
      getAllPackages env st regUrl = (.ok (some v), st)) ∧
    (lookupA st.repoCache (repoKey regUrl) = some .failed →
      netCount st.trace < netCount (getAllPackages env st regUrl).2.trace) := by
  constructor
  · intro v hv
    exact gap_resolved_eq env st regUrl v hv
  · intro hf
    obtain ⟨t, ht⟩ := gap_failed_trace env st regUrl hf
    rw [ht, netCount_append]
    have : netCount
        (Ev.netFetch (packagesJsonUrl regUrl)
          (getHostOpts env (packagesJsonUrl regUrl)).auth :: st.trace) =
        netCount st.trace + 1 := by
      simp [netCount, List.countP_cons, isNetFetch]
    omega

/-- Witness for C1 (amended): a concrete RESOLVED entry is returned
unchanged, and a concrete FAILED entry triggers a fresh root fetch. -/
theorem getAllPackages_cache_terminal_witness :
    (lookupA stResolved.repoCache (repoKey "https://r") =
       some (.resolved apBoth) ∧
     getAllPackages envAnon stResolved "https://r" =
       (.ok (some apBoth), stResolved)) ∧
    (lookupA stFailed.repoCache (repoKey "https://r") = some .failed ∧
     netCount stFailed.trace <
       netCount (getAllPackages envAnon stFailed "https://r").2.trace) :=
  ⟨⟨by decide,
    (getAllPackages_cache_terminal envAnon stResolved "https://r").1 apBoth
      (by decide)⟩,
   ⟨by decide,
    (getAllPackages_cache_terminal envAnon stFailed "https://r").2
      (by decide)⟩⟩

/-- Claim C4: for a non-default registry whose assembled view is
cached, packageLookup resolves in strict priority order: the flat
packages entry is returned first; otherwise the includesPackages entry;
otherwise the provider-shard lookup (per-package fetch); and no provider
fetch is performed when an earlier layout already has the package — the
state is returned untouched in those cases. -/
theorem packageLookup_layout_priority (env : Env) (st : St)
    (regUrl name : String) (v : AllPackages)
    (hreg : regUrl ≠ defaultRegUrl)
    (hv : lookupA st.repoCache (repoKey regUrl) = some (.resolved v)) :
    (∀ pkgs raw, v.packages = some pkgs → lookupA pkgs name = some raw →
      packageLookup env st regUrl name =
        (.ok (some { extractDepReleases (some raw) with name := some name }),
         st)) ∧
    (v.packages.bind (fun pkgs => lookupA pkgs name) = none →
      ∀ dep, lookupA v.includesPackages name = some dep →
      packageLookup env st regUrl name = (.ok (some dep), st)) ∧
    (v.packages.bind (fun pkgs => lookupA pkgs name) = none →
      lookupA v.includesPackages name = none →
      lookupA v.providerPackages name = none →
      packageLookup env st regUrl name = (.ok none, st)) ∧
    (∀ hash pUrl pkgs2,
      v.packages.bind (fun pkgs => lookupA pkgs name) = none →
      lookupA v.includesPackages name = none →
      lookupA v.providerPackages name = some hash →
      v.providersUrl = some pUrl →
      env.netPkg (urlResolve regUrl
        (replaceOnce (replaceOnce pUrl "%package%" name) "%hash%" hash)) =
        .ok pkgs2 →
      packageLookup env st regUrl name =
        (.ok (some { extractDepReleases (lookupA pkgs2 name) with
            name := some name }),
         (st.emit (.netFetch (urlResolve regUrl
            (replaceOnce (replaceOnce pUrl "%package%" name) "%hash%" hash))
            (getHostOpts env regUrl).auth)).emit (.logTrace "dep"))) := by
  have hgap := gap_resolved_eq env st regUrl v hv
  refine ⟨?_, ?_, ?_, ?_⟩
  · intro pkgs raw hp hr
    have hbind : v.packages.bind (fun pkgs => lookupA pkgs name) = some raw := by
      rw [hp]
      simpa using hr
    unfold packageLookup
    rw [if_neg hreg, hgap]
    dsimp only
    rw [hbind]
  · intro hbind dep hdep
    unfold packageLookup
    rw [if_neg hreg, hgap]
    dsimp only
    rw [hbind]
    dsimp only
    rw [hdep]
  · intro hbind hinc hprov
    unfold packageLookup
    rw [if_neg hreg, hgap]
    dsimp only
    rw [hbind]
    dsimp only
    rw [hinc]
    dsimp only
    rw [hprov]
  · intro hash pUrl pkgs2 hbind hinc hprov hpu hnet
    unfold packageLookup
    rw [if_neg hreg, hgap]
    dsimp only
    rw [hbind]
    dsimp only
    rw [hinc]
    dsimp only
    rw [hprov]
    dsimp only
    rw [hpu]
    dsimp only
    rw [hnet]

/-- Witness for C4: package a is present both in the flat packages map
and among the provider hashes of the concrete view, and the flat entry
is returned with the state untouched. -/
theorem packageLookup_layout_priority_witness :
    ("https://r" ≠ defaultRegUrl) ∧
    lookupA apBoth.providerPackages "a" = some "h2" ∧
    packageLookup envAnon stResolved "https://r" "a" =
      (.ok (some { extractDepReleases (some vm0) with name := some "a" }),
       stResolved) :=
  ⟨by decide, by decide,
   (packageLookup_layout_priority envAnon stResolved "https://r" "a" apBoth
     (by decide) (by decide)).1 [("a", vm0)] vm0 (by decide) (by decide)⟩

/-- Claim C7: in packageLookup's catch, a 404 or ENOTFOUND yields null;
an error from the default registry host with a connection reset, a
timeout, or a 5xx status is escalated as a thrown DatasourceError; every
other error yields null; and such escalations are the only way
packageLookup can end in a throw. -/
theorem packageLookup_error_policy :
    (∀ st name e, (e.statusCode = some 404 ∨ e.code = some "ENOTFOUND") →
      (packageLookupCatch st name e).1 = .ok none) ∧
    (∀ st name e, ¬(e.statusCode = some 404 ∨ e.code = some "ENOTFOUND") →
      e.host = some "packagist.org" →
      (e.code = some "ECONNRESET" ∨ e.code = some "ETIMEDOUT" ∨
        Option.any (fun sc => 500 ≤ sc && sc < 600) e.statusCode = true) →
      (packageLookupCatch st name e).1 = .thrown { err := e }) ∧
    (∀ st name e, ¬(e.host = some "packagist.org" ∧
        (e.code = some "ECONNRESET" ∨ e.code = some "ETIMEDOUT" ∨
         Option.any (fun sc => 500 ≤ sc && sc < 600) e.statusCode = true)) →
      (packageLookupCatch st name e).1 = .ok none) ∧
    (∀ env st regUrl name d st2,
      packageLookup env st regUrl name = (.thrown d, st2) →
      d.err.host = some "packagist.org" ∧
      d.err.statusCode ≠ some 404 ∧ d.err.code ≠ some "ENOTFOUND" ∧
      (d.err.code = some "ECONNRESET" ∨ d.err.code = some "ETIMEDOUT" ∨
        Option.any (fun sc => 500 ≤ sc && sc < 600) d.err.statusCode =
          true)) := by
  refine ⟨?_, ?_, ?_, ?_⟩
  · intro st name e h
    unfold packageLookupCatch
    rw [if_pos h]
  · intro st name e h404 hhost hesc
    unfold packageLookupCatch
    rw [if_neg h404]
    rcases hesc with hc | hc | hsc
    · rw [if_pos ⟨hhost, Or.inl hc⟩]
    · rw [if_pos ⟨hhost, Or.inr hc⟩]
    · by_cases hcc : e.code = some "ECONNRESET" ∨ e.code = some "ETIMEDOUT"
      · rw [if_pos ⟨hhost, hcc⟩]
      · rw [if_neg (fun hh => hcc hh.2), if_pos ⟨hhost, hsc⟩]
  · intro st name e hno
    unfold packageLookupCatch
    split_ifs with h1 h2 h3
    · rfl
    · exact absurd ⟨h2.1, h2.2.elim Or.inl (fun b => Or.inr (Or.inl b))⟩ hno
    · exact absurd ⟨h3.1, Or.inr (Or.inr h3.2)⟩ hno
    · rfl
  · intro env st regUrl name d st2 h
    unfold packageLookup at h
    split at h
    · split at h
      · simp at h
      · rcases packageLookupCatch_thrown _ _ _ _ _ h with ⟨hde, hh, h1, h2, h3⟩
        rw [hde]
        exact ⟨hh, h1, h2, h3⟩
    · split at h
      · simp at h
      · rcases packageLookupCatch_thrown _ _ _ _ _ h with ⟨hde, hh, h1, h2, h3⟩
        rw [hde]
        exact ⟨hh, h1, h2, h3⟩
      · simp at h
      · split at h
        · simp at h
        · split at h
          · simp at h
          · split at h
            · simp at h
            · split at h
              · rcases packageLookupCatch_thrown _ _ _ _ _ h with
                  ⟨hde, hh, h1, h2, h3⟩
                rw [hde]
                exact ⟨hh, h1, h2, h3⟩
              · dsimp only at h
                split at h
                · rcases packageLookupCatch_thrown _ _ _ _ _ h with
                    ⟨hde, hh, h1, h2, h3⟩
                  rw [hde]
                  exact ⟨hh, h1, h2, h3⟩
                · simp at h

/-- Witness for C7: a 404 yields null, a 503 from the default registry
host is thrown, a plain timeout without that host yields null, and a
concrete lookup against the default registry ending in a throw satisfies
the escalation conditions. -/
theorem packageLookup_error_policy_witness :
    (packageLookupCatch st0 "a" err404).1 = .ok none ∧
    (packageLookupCatch st0 "a" err5).1 = .thrown { err := err5 } ∧
    (packageLookupCatch st0 "a" errT).1 = .ok none ∧
    ({ err := err5 : DatasourceError }.err.host = some "packagist.org" ∧
     { err := err5 : DatasourceError }.err.statusCode ≠ some 404 ∧
     { err := err5 : DatasourceError }.err.code ≠ some "ENOTFOUND" ∧
     ({ err := err5 : DatasourceError }.err.code = some "ECONNRESET" ∨
      { err := err5 : DatasourceError }.err.code = some "ETIMEDOUT" ∨
      Option.any (fun sc => 500 ≤ sc && sc < 600)
        { err := err5 : DatasourceError }.err.statusCode = true)) :=
  ⟨packageLookup_error_policy.1 st0 "a" err404 (Or.inl (by decide)),
   packageLookup_error_policy.2.1 st0 "a" err5 (by decide) (by decide)
     (Or.inr (Or.inr (by decide))),
   packageLookup_error_policy.2.2.1 st0 "a" errT (by decide),
   packageLookup_error_policy.2.2.2 envErr5 st0 defaultRegUrl "a"
     { err := err5 } stAfterOrgErr rfl⟩

/-- Claim C8: getReleases tries the configured registry URLs in order
and returns the first non-null packageLookup result; an absent or empty
registryUrls list consults exactly the single default registry; and when
every registry soft-fails the overall result is null, with no earlier
soft failure surfaced. -/
theorem getReleases_first_nonnull (env : Env) (name : String) :
    (∀ st, getReleases env st name none =
       getReleases env st name (some [defaultRegUrl])) ∧
    (∀ st, getReleases env st name (some []) =
       getReleases env st name (some [defaultRegUrl])) ∧
    (∀ st pre st1 r rest res st2,
       softFailRun env name st pre = some st1 →
       packageLookup env st1 r name = (.ok (some res), st2) →
       getReleases env st name (some (pre ++ r :: rest)) =
         (.ok (some res), st2)) ∧
    (∀ st urls st1, urls ≠ [] →
       softFailRun env name st urls = some st1 →
       getReleases env st name (some urls) = (.ok none, st1)) := by
  refine ⟨fun st => rfl, fun st => rfl, ?_, ?_⟩
  · intro st pre st1 r rest res st2 hsf hpl
    have hloop : lookupLoop env name st (pre ++ r :: rest) =
        (.ok (some res), st2) := by
      rw [softFailRun_append env name pre st st1 (r :: rest) hsf]
      rw [lookupLoop, hpl]
    cases pre with
    | nil => exact hloop
    | cons p ps => exact hloop
  · intro st urls st1 hne hsf
    have hloop := softFailRun_append env name urls st st1 [] hsf
    rw [List.append_nil] at hloop
    cases urls with
    | nil => exact absurd rfl hne
    | cons u us => exact hloop

/-- Witness for C8: with registry a resolving to an empty view (soft
fail) and registry b holding package a, the overall result is b's
resolution; and an absent registry list behaves like the single default
registry. -/
theorem getReleases_first_nonnull_witness :
    getReleases envAnon stAB "a" none =
      getReleases envAnon stAB "a" (some [defaultRegUrl]) ∧
    getReleases envAnon stAB "a" (some ["https://a", "https://b"]) =
      (.ok (some depA), stAB) :=
  ⟨(getReleases_first_nonnull envAnon "a").1 stAB,
   (getReleases_first_nonnull envAnon "a").2.2.1 stAB ["https://a"] stAB
     "https://b" [] depA stAB rfl rfl⟩

/-- Claim C10: in the default-registry fast path, a package absent from
the per-package endpoint yields a null result that is written to the
10-minute cache, but a cached null is treated as a miss, so a later
lookup of that package performs a fresh network fetch instead of serving
the cached negative result. -/
theorem packagistOrgLookup_negative_cache (env : Env) (st : St)
    (name : String) :
    (∀ pkgs,
      (lookupA st.orgCache name = none ∨
       lookupA st.orgCache name = some none) →
      env.netPkg (urlResolve defaultRegUrl ("/p/" ++ name ++ ".json")) =
        .ok pkgs →
      lookupA pkgs name = none →
      (packagistOrgLookup env st name).1 = .ok none ∧
      lookupA (packagistOrgLookup env st name).2.orgCache name = some none ∧
      (packagistOrgLookup env st name).2.trace =
        Ev.cacheSet orgNs name 10 ::
        Ev.netFetch (urlResolve defaultRegUrl ("/p/" ++ name ++ ".json"))
          none ::
        Ev.cacheGet orgNs name :: st.trace) ∧
    (lookupA st.orgCache name = some none →
      ∃ t, (packagistOrgLookup env st name).2.trace =
        t ++ Ev.netFetch (urlResolve defaultRegUrl ("/p/" ++ name ++ ".json"))
          none :: Ev.cacheGet orgNs name :: st.trace) := by
  constructor
  · intro pkgs hmiss hnet hnone
    unfold packagistOrgLookup
    dsimp only [St.emit]
    rcases hmiss with hmiss | hmiss
    · rw [hmiss]
      dsimp only
      rw [hnet]
      dsimp only
      rw [hnone]
      dsimp only
      exact ⟨rfl, lookupA_insertA_self _ _ _, rfl⟩
    · rw [hmiss]
      dsimp only
      rw [hnet]
      dsimp only
      rw [hnone]
      dsimp only
      exact ⟨rfl, lookupA_insertA_self _ _ _, rfl⟩
  · intro hnull
    unfold packagistOrgLookup
    dsimp only [St.emit]
    rw [hnull]
    dsimp only
    rcases hnet : env.netPkg
        (urlResolve defaultRegUrl ("/p/" ++ name ++ ".json")) with e | pkgs
    · exact ⟨[], rfl⟩
    · dsimp only
      rcases hlp : lookupA pkgs name with _ | res
      · dsimp only
        exact ⟨[_], rfl⟩
      · dsimp only
        exact ⟨[_, _], rfl⟩

/-- Witness for C10: a concrete stored null is treated as a miss, the
fresh fetch finds nothing, and the null is re-written with a 10-minute
expiry. -/
theorem packagistOrgLookup_negative_cache_witness :
    lookupA stOrgNull.orgCache "a" = some none ∧
    ((packagistOrgLookup envNoPkg stOrgNull "a").1 = .ok none ∧
     lookupA (packagistOrgLookup envNoPkg stOrgNull "a").2.orgCache "a" =
       some none ∧
     (packagistOrgLookup envNoPkg stOrgNull "a").2.trace =
       Ev.cacheSet orgNs "a" 10 ::
       Ev.netFetch (urlResolve defaultRegUrl ("/p/" ++ "a" ++ ".json")) none ::
       Ev.cacheGet orgNs "a" :: stOrgNull.trace) ∧
    (∃ t, (packagistOrgLookup envNoPkg stOrgNull "a").2.trace =
       t ++ Ev.netFetch (urlResolve defaultRegUrl ("/p/" ++ "a" ++ ".json"))
         none :: Ev.cacheGet orgNs "a" :: stOrgNull.trace) :=
  ⟨by decide,
   (packagistOrgLookup_negative_cache envNoPkg stOrgNull "a").1 []
     (Or.inr (by decide)) rfl rfl,
   (packagistOrgLookup_negative_cache envNoPkg stOrgNull "a").2 (by decide)⟩

end Packagist
